import Mathlib

set_option maxRecDepth 8192

/-!
Verification of the scheduled-capture / incremental-analysis / report-assembly
pipeline implemented in `src/athena_any_prompt.ts`.

The shallow embedding below translates the three components of the pipeline:

* the Capture Scheduler (the screenshot loop in `main`, lines 383-419),
* the Conversational Analysis Engine (`evaluateScreenshotsWithClaude`), and
* the Report Assembler (`createReports`)

into executable Lean definitions.  External capabilities are injected as
functions: the chat capability is a function from the accumulated conversation
to an assistant reply or an error, the capture capability is a boolean oracle
indexed by snapshot index and attempt number, and filesystem write failures are
a boolean oracle indexed by the sequence number of the write/copy operation in
the run.  Wall-clock effects (`page.waitForTimeout`) are modelled as events in
an explicit trace.  The writing of `conversation_log.md` inside the analysis
phase is an effect that none of the verified properties mention and is not
modelled; the chat capability is the modelled failure source of that phase.
-/

/-- Conversation roles, mirroring `SystemMessage` / `HumanMessage` / `AIMessage`
from `@langchain/core/messages` as used by the source. -/
inductive Role
  | system
  | user
  | assistant
deriving DecidableEq, Repr

/-- One conversation turn.  A `user` turn produced for a snapshot carries the
base64 image content (`image_url` block in the source); `system` and
`assistant` turns carry only text. -/
structure Msg where
  role : Role
  text : String
  image : Option String := none
deriving DecidableEq, Repr

/-- The system prompt from `evaluateScreenshotsWithClaude` (lines 27-31). -/
def systemPromptText : String :=
  "You are an expert at analyzing screenshots of web applications. " ++
  "You provide detailed observations about what you see and track progress across multiple screenshots. " ++
  "If you see any errors, issues, or messages like \x27I\x27m sorry but I can\x27t process your request\x27, flag them clearly."

/-- The prompt used for the first snapshot (line 49). -/
def firstPromptText : String :=
  "Evaluate this screenshot of a workflow and explain everything you see. If you see any errors, clearly state so."

/-- The prompt used for every subsequent snapshot (lines 51-56). -/
def subsequentPromptText : String :=
  "Analyze this new screenshot as well as the previous screenshots and annotations. " ++
  "Check if the workflow is progressing well. " ++
  "If you see any issues (errors, mistakes, messages like \x27I\x27m sorry but I can\x27t process your request\x27), flag them clearly. " ++
  "Compare with previous screenshots to identify changes or progress." ++
  "Output structure: 1. Issues: No issues/List issues 2. Documents created: .. 3. Workflow progression: 2 words on one step + 2 words on 2nd + ... 4. Agents & Tools used: agent 1: tool 1, tool 2; agent 2: ...  5. Final state: 1 sentence one the final state. "

/-- The closing summary request appended after the last snapshot (lines 97-102). -/
def summaryPromptText : String :=
  "Based on all the screenshots you\x27ve analyzed, please provide a summary of the workflow execution. Be concise and provide the most important points first: errors, if no errors/issues, what was done, what agents worked/what documents created.  " ++
  "Did the workflow run successfully? Were there any issues or errors? " ++
  "Please format your response as a clear summary with bullet points for any issues found, no more than 5 sentences/bullet points " ++
  "and reference the specific screenshots where issues were observed."

/-- Per-snapshot prompt selection (`if (i === 0) ... else ...`, lines 48-57). -/
def promptText (i : Nat) : String :=
  if i = 0 then firstPromptText else subsequentPromptText

/-- The single system turn created once, first (line 26-32). -/
def systemMsg : Msg := ⟨Role.system, systemPromptText, none⟩

/-- The conversation as initialized before the snapshot loop. -/
def initialMessages : List Msg := [systemMsg]

/-- The user turn built for snapshot `i` whose image content is `img`
(lines 60-75): prompt text plus the base64 image. -/
def userTurn (i : Nat) (img : String) : Msg :=
  ⟨Role.user, promptText i, some img⟩

/-- An assistant turn as appended after each chat reply (line 82). -/
def assistantTurn (t : String) : Msg := ⟨Role.assistant, t, none⟩

/-- The final user turn requesting the workflow summary (lines 96-103). -/
def summaryUserMsg : Msg := ⟨Role.user, summaryPromptText, none⟩

/-- Output of the snapshot loop of `evaluateScreenshotsWithClaude`
(lines 38-93).  Besides the final conversation and annotation list, the
embedding records the argument of every chat-capability invocation (`calls`)
and the conversation as it stands after each snapshot's reply is appended
(`states`), so that the conversation-shape invariants can be stated. -/
structure LoopOut where
  msgs : List Msg
  annotations : List String
  calls : List (List Msg)
  states : List (List Msg)
deriving Repr

/-- The per-snapshot loop of `evaluateScreenshotsWithClaude` (lines 38-93).
`chat` is the chat capability (`model.call`), `ri` maps a screenshot path to
its base64 content (`imageToBase64`), `i` is the loop index and `msgs` the
conversation accumulated so far.  Each iteration appends the user turn, invokes
the chat capability with the entire conversation, appends the reply, and
records the reply as the snapshot's annotation; any chat failure escapes to the
caller (it is caught only at the phase boundary, line 125). -/
def processSnapshots (chat : List Msg → Except String String) (ri : String → String) :
    Nat → List Msg → List String → Except String LoopOut
  | _, msgs, [] => Except.ok ⟨msgs, [], [], []⟩
  | i, msgs, p :: rest =>
    match chat (msgs ++ [userTurn i (ri p)]) with
    | Except.error e => Except.error e
    | Except.ok reply =>
      match processSnapshots chat ri (i+1) (msgs ++ [userTurn i (ri p)] ++ [assistantTurn reply]) rest with
      | Except.error e => Except.error e
      | Except.ok out =>
        Except.ok ⟨out.msgs, reply :: out.annotations,
          (msgs ++ [userTurn i (ri p)]) :: out.calls,
          (msgs ++ [userTurn i (ri p)] ++ [assistantTurn reply]) :: out.states⟩

/-- Result of the whole (un-degraded) analysis phase: annotations, summary,
the final conversation, the chat-call trace and the per-snapshot conversation
states. -/
structure AnalysisOut where
  annotations : List String
  summary : String
  finalMsgs : List Msg
  calls : List (List Msg)
  states : List (List Msg)
deriving Repr

/-- The body of `evaluateScreenshotsWithClaude`'s try block (lines 22-124):
process all snapshots, then append the summary request and invoke the chat
capability once more.  Note that the source records the summary reply only in
the `summary` variable (line 108): it is never pushed back into `messages`
(there is no counterpart of line 82's `messages.push(new AIMessage(...))` for
the summary), so the final conversation ends with the summary request turn. -/
def evaluateBody (chat : List Msg → Except String String) (ri : String → String)
    (paths : List String) : Except String AnalysisOut :=
  match processSnapshots chat ri 0 initialMessages paths with
  | Except.error e => Except.error e
  | Except.ok lo =>
    match chat (lo.msgs ++ [summaryUserMsg]) with
    | Except.error e => Except.error e
    | Except.ok s =>
      Except.ok ⟨lo.annotations, s, lo.msgs ++ [summaryUserMsg],
        lo.calls ++ [lo.msgs ++ [summaryUserMsg]], lo.states⟩

/-- `evaluateScreenshotsWithClaude` (lines 17-132): on any failure in the
phase the catch block (lines 125-131) returns the degraded pair
`(["Error evaluating screenshots: " + error], "Error generating summary: " + error)`
-- note the single-element annotations array. -/
def evaluateScreenshotsWithClaude (chat : List Msg → Except String String)
    (ri : String → String) (paths : List String) : List String × String :=
  match evaluateBody chat ri paths with
  | Except.ok out => (out.annotations, out.summary)
  | Except.error e =>
      (["Error evaluating screenshots: " ++ e], "Error generating summary: " ++ e)

/-- `path.join(dir, name)` as used by `createReports` for its output files.
The source only joins a directory with a plain file name, for which posix
join is plain concatenation with a separator. -/
def pathJoin (a b : String) : String := a ++ "/" ++ b

/-- Split a character list at every `/` (structural-recursion counterpart of
`p.split('/')`, so that it evaluates by reduction). -/
def splitOnSlash : List Char → List (List Char)
  | [] => [[]]
  | ch :: rest =>
    let r := splitOnSlash rest
    if ch = '/' then [] :: r
    else
      match r with
      | [] => [[ch]]
      | x :: xs => (ch :: x) :: xs

/-- `path.basename(p)` / `p.split('/').pop()` for the screenshot paths handled
by the pipeline (no trailing separator): the last `/`-separated component. -/
def baseName (p : String) : String := String.mk ((splitOnSlash p.data).getLastD [])

/-- Whether `pat` is an initial segment of the second list. -/
def startsWithChars : List Char → List Char → Bool
  | [], _ => true
  | _ :: _, [] => false
  | p :: ps, s :: ss => decide (p = s) && startsWithChars ps ss

/-- Replace the first occurrence of `pat` (if any) by `rep` in a character
list. -/
def replaceFirstChars (pat rep : List Char) : List Char → List Char
  | [] => []
  | s :: ss =>
    if startsWithChars pat (s :: ss) then rep ++ (s :: ss).drop pat.length
    else s :: replaceFirstChars pat rep ss

/-- JavaScript `String.prototype.replace` with a string pattern: replace the
first occurrence of `pat` (if any) by `rep`. -/
def replaceFirst (s pat rep : String) : String :=
  String.mk (replaceFirstChars pat.data rep.data s.data)

/-- The name of the annotation file for a screenshot at path `p`
(`screenshotFilename.replace('.png', '-annotation.md')`, line 162; the same
expression is used in the index document, line 213). -/
def annFileName (p : String) : String :=
  replaceFirst (baseName p) (".png") ("-annotation.md")

/-- One entry of the index document's screenshot list (lines 211-221):
a heading `Screenshot i+1`, an image preview of the copied screenshot, and a
link to its annotation file. -/
structure IndexEntry where
  heading : String
  imgSrc : String
  annHref : String
deriving DecidableEq, Repr

/-- `screenshotPaths.map((path, index) => ...)` building the index entries
(lines 211-221), as index-carrying recursion. -/
def indexEntriesFrom (k : Nat) : List String → List IndexEntry
  | [] => []
  | p :: rest =>
    ⟨"Screenshot " ++ toString (k + 1), baseName p, annFileName p⟩ ::
      indexEntriesFrom (k + 1) rest

/-- The full list of index entries, one per screenshot, in sequence order. -/
def indexEntries (paths : List String) : List IndexEntry :=
  indexEntriesFrom 0 paths

/-- The index document, structured: the generation timestamp, the summary
rendered to HTML, the per-snapshot entries, and the static links to the
transcript (`conversation_log.md`) and summary (`workflow_summary.md`)
documents (lines 180-231). -/
structure IndexDoc where
  generatedOn : String
  summaryHtml : String
  entries : List IndexEntry
  transcriptHref : String
  summaryHref : String
deriving DecidableEq, Repr

/-- Assemble the index document from the inputs of `createReports`;
`summary.replace(/\n/g, '<br>')` is a global replacement (line 205). -/
def buildIndexDoc (paths : List String) (summary now : String) : IndexDoc :=
  ⟨now, summary.replace "\n" "<br>", indexEntries paths,
    "conversation_log.md", "workflow_summary.md"⟩

/-- Render one screenshot entry of the index document (lines 214-220). -/
def indexEntryHtml (e : IndexEntry) : String :=
  "\n        <div class=\"screenshot-item\">\n          <h3>" ++ e.heading ++
  "</h3>\n          <img src=\"" ++ e.imgSrc ++ "\" alt=\"" ++ e.heading ++
  "\" style=\"max-height: 200px;\">\n          <p><a href=\"" ++ e.annHref ++
  "\" target=\"_blank\">View Analysis</a></p>\n        </div>\n      "

/-- Render the index document (the template literal of lines 180-231; literal
braces of the embedded CSS are escaped). -/
def renderIndexDoc (d : IndexDoc) : String :=
  "\n<!DOCTYPE html>\n<html>\n<head>\n  <title>Athena Workflow Analysis</title>\n  <style>\n" ++
  "    body \x7b font-family: Arial, sans-serif; margin: 0; padding: 20px; \x7d\n" ++
  "    h1, h2 \x7b color: #333; \x7d\n" ++
  "    .timestamp \x7b color: #666; font-size: 0.9em; margin-bottom: 20px; \x7d\n" ++
  "    .summary \x7b background-color: #f5f5f5; padding: 20px; border-radius: 5px; margin-bottom: 30px; \x7d\n" ++
  "    .screenshot-list \x7b display: flex; flex-wrap: wrap; gap: 20px; \x7d\n" ++
  "    .screenshot-item \x7b border: 1px solid #ddd; padding: 15px; border-radius: 5px; width: 300px; \x7d\n" ++
  "    .screenshot-item img \x7b max-width: 100%; \x7d\n" ++
  "    .screenshot-item h3 \x7b margin-top: 0; \x7d\n" ++
  "    .links \x7b margin-top: 30px; \x7d\n" ++
  "    .links a \x7b display: block; margin-bottom: 10px; \x7d\n" ++
  "  </style>\n</head>\n<body>\n  <h1>Athena Workflow Analysis</h1>\n  <div class=\"timestamp\">Generated on: " ++
  d.generatedOn ++
  "</div>\n  \n  <div class=\"summary\">\n    <h2>Workflow Summary</h2>\n    <div class=\"markdown-content\">\n      " ++
  d.summaryHtml ++
  "\n    </div>\n  </div>\n  \n  <h2>Screenshots</h2>\n  <div class=\"screenshot-list\">\n    " ++
  String.join ((d.entries).map indexEntryHtml) ++
  "\n  </div>\n  \n  <div class=\"links\">\n    <h2>Detailed Analysis</h2>\n    <a href=\"" ++
  d.transcriptHref ++
  "\" target=\"_blank\">View Complete Conversation Log</a>\n    <a href=\"" ++
  d.summaryHref ++
  "\" target=\"_blank\">View Workflow Summary</a>\n  </div>\n</body>\n</html>\n    "

/-- The content of `index.html` (line 180-231). -/
def indexHtml (paths : List String) (summary now : String) : String :=
  renderIndexDoc (buildIndexDoc paths summary now)

/-- One filesystem side effect of the Report Assembler: a screenshot copy
(`fs.copyFileSync`, line 156) or a file write (`fs.writeFileSync`). -/
inductive FsOp
  | copyFile (src dst : String)
  | writeFile (file : String) (content : String)
deriving DecidableEq, Repr

/-- Result of one run of the per-snapshot loop of `createReports`:
the operations that were actually performed in order, the next operation
sequence number, and whether the loop threw. -/
structure RLoopOut where
  ops : List FsOp
  next : Nat
  err : Bool
deriving DecidableEq, Repr

/-- Outcome of `createReports`' try block: performed operations and whether an
exception was raised (and then caught at line 240). -/
structure ReportRun where
  ops : List FsOp
  err : Bool
deriving DecidableEq, Repr

/-- The per-snapshot loop of `createReports` (lines 150-170).  `ok` is the
filesystem-failure oracle: `ok n = false` means the `n`-th copy/write
operation of this run throws.  For each path the screenshot is copied first,
then its annotation is written; `annotations[i]` beyond the end of the
annotations array is JavaScript `undefined`, and
`fs.writeFileSync(path, undefined, 'utf8')` throws, which the embedding
renders as the `none` branch.  Any throw aborts the loop (and, in the source,
propagates to the single catch at line 240). -/
def reportLoop (ok : Nat → Bool) (outDir : String) (anns : List String) :
    List String → Nat → Nat → RLoopOut
  | [], _, n => ⟨[], n, false⟩
  | p :: rest, i, n =>
    if ok n then
      match anns[i]? with
      | none => ⟨[FsOp.copyFile p (pathJoin outDir (baseName p))], n + 1, true⟩
      | some ann =>
        if ok (n + 1) then
          let out := reportLoop ok outDir anns rest (i + 1) (n + 2)
          ⟨FsOp.copyFile p (pathJoin outDir (baseName p)) ::
            FsOp.writeFile (pathJoin outDir (annFileName p)) ann :: out.ops,
            out.next, out.err⟩
        else ⟨[FsOp.copyFile p (pathJoin outDir (baseName p))], n + 2, true⟩
    else ⟨[], n + 1, true⟩

/-- The try block of `createReports` (lines 141-239): the per-snapshot loop,
then the summary document write (line 173), then the index document write
(line 233).  A throw at any point skips everything after it. -/
def createReportsBody (ok : Nat → Bool) (outDir : String)
    (paths anns : List String) (summary now : String) : ReportRun :=
  let l := reportLoop ok outDir anns paths 0 0
  if l.err then ⟨l.ops, true⟩
  else if ok l.next then
    if ok (l.next + 1) then
      ⟨l.ops ++ [FsOp.writeFile (pathJoin outDir ("workflow_summary.md")) summary,
        FsOp.writeFile (pathJoin outDir ("index.html")) (indexHtml paths summary now)],
        false⟩
    else ⟨l.ops ++ [FsOp.writeFile (pathJoin outDir ("workflow_summary.md")) summary], true⟩
  else ⟨l.ops, true⟩

/-- `createReports` (lines 135-243): the catch block logs the error and
swallows it, so the caller only ever observes the performed operations,
never an exception. -/
def createReports (ok : Nat → Bool) (outDir : String)
    (paths anns : List String) (summary now : String) : List FsOp :=
  (createReportsBody ok outDir paths anns summary now).ops

/-- Observable events of the Capture Scheduler: a capture attempt (snapshot
index, attempt number), a successful capture (the screenshot file written),
and a timed idle (`page.waitForTimeout(ms)`). -/
inductive Ev
  | attempt (idx att : Nat)
  | capture (idx : Nat)
  | wait (ms : Nat)
deriving DecidableEq, Repr

/-- A snapshot record as produced by the Scheduler: its position in the
sequence and the path of its image (`screenshotPaths[i]`). -/
structure SnapshotRecord where
  sequenceIndex : Nat
  imagePath : String
deriving DecidableEq, Repr

/-- Outcome of (part of) the Scheduler loop: the records produced, the trace
of events, and whether the run was aborted by capture exhaustion (the rethrow
at line 405). -/
structure SchedOut where
  records : List SnapshotRecord
  events : List Ev
  fatal : Bool
deriving DecidableEq, Repr

/-- The retry while-loop for one screenshot (lines 391-410).  `capOk i a` says
whether attempt `a` (0-based) of snapshot `i` succeeds.  `retries` starts at 3;
a failed attempt decrements it and, if attempts remain, waits a fixed 5000 ms
before retrying; when it reaches 0 the error is rethrown (no wait).  Returns
the event trace and whether a capture succeeded. -/
def captureLoop (capOk : Nat → Nat → Bool) (i : Nat) : Nat → Nat → List Ev × Bool
  | 0, _ => ([], false)
  | retries + 1, a =>
    if capOk i a then ([Ev.attempt i a, Ev.capture i], true)
    else if retries = 0 then ([Ev.attempt i a], false)
    else
      let rest := captureLoop capOk i retries (a + 1)
      (Ev.attempt i a :: Ev.wait 5000 :: rest.1, rest.2)

/-- The screenshot for-loop of `main` (lines 385-419); the first `Nat`
argument is the remaining iteration count (`N - i`), the second the current
index `i`.  After a successful capture the path is recorded and, unless this
was the final screenshot, the scheduler idles for the configured interval `T`;
capture exhaustion aborts the run with the records produced so far. -/
def schedGo (capOk : Nat → Nat → Bool) (pathFor : Nat → String) (T N : Nat) :
    Nat → Nat → SchedOut
  | 0, _ => ⟨[], [], false⟩
  | fuel + 1, i =>
    let att := captureLoop capOk i 3 0
    if att.2 then
      let tail := schedGo capOk pathFor T N fuel (i + 1)
      ⟨⟨i, pathFor i⟩ :: tail.records,
        att.1 ++ (if i < N - 1 then [Ev.wait T] else []) ++ tail.events,
        tail.fatal⟩
    else ⟨[], att.1, true⟩

/-- The Capture Scheduler: take `N` screenshots with interval `T`;
`pathFor i` is the (timestamped) path chosen for screenshot `i` (line 388). -/
def scheduler (capOk : Nat → Nat → Bool) (pathFor : Nat → String) (T N : Nat) :
    SchedOut :=
  schedGo capOk pathFor T N N 0

/-- The tail of `main` after the workflow has been seeded (lines 383-442),
composed with the outer catch (lines 443-451), which rethrows: capture
exhaustion terminates the run as an error; otherwise analysis (whose failures
degrade) and report creation (whose failures are swallowed) always complete
and the run succeeds. -/
def pipelineOutcome (capOk : Nat → Nat → Bool) (pathFor : Nat → String) (T N : Nat)
    (chat : List Msg → Except String String) (ri : String → String)
    (ok : Nat → Bool) (outDir now : String) : Except Unit (List FsOp) :=
  let s := scheduler capOk pathFor T N
  if s.fatal then Except.error ()
  else
    let res := evaluateScreenshotsWithClaude chat ri
      (s.records.map (fun r => r.imagePath))
    Except.ok (createReports ok outDir (s.records.map (fun r => r.imagePath))
      res.1 res.2 now)

/-- Closed form of the filesystem operations of the per-snapshot report loop
when every operation succeeds: for each snapshot, its screenshot copy followed
by its annotation write (derived from `reportLoop`; used in statements). -/
def reportOpsOk (outDir : String) (paths anns : List String) : List FsOp :=
  (paths.zip anns).flatMap (fun pa =>
    [FsOp.copyFile pa.1 (pathJoin outDir (baseName pa.1)),
     FsOp.writeFile (pathJoin outDir (annFileName pa.1)) pa.2])


/-- Concrete instances used by the witnesses and the counterexample below. -/
def cChat : List Msg → Except String String := fun _ => Except.ok "r"

def cRi : String → String := fun _ => "img"

def cPaths : List String := ["shots/a.png", "shots/b.png"]

def failChat : List Msg → Except String String := fun _ => Except.error "boom"

def cPathFor : Nat → String := fun i => "shots/p" ++ toString i ++ ".png"

def cCapOkFlaky : Nat → Nat → Bool := fun i a => if i = 1 then decide (a = 2) else true

def cOkFail1 : Nat → Bool := fun n => decide (n ≠ 1)

/-- The analysis output of `evaluateBody` on the concrete instances above. -/
def cOut : AnalysisOut :=
  ⟨["r", "r"], "r",
   [systemMsg, userTurn 0 "img", assistantTurn "r", userTurn 1 "img",
    assistantTurn "r", summaryUserMsg],
   [[systemMsg, userTurn 0 "img"],
    [systemMsg, userTurn 0 "img", assistantTurn "r", userTurn 1 "img"],
    [systemMsg, userTurn 0 "img", assistantTurn "r", userTurn 1 "img",
     assistantTurn "r", summaryUserMsg]],
   [[systemMsg, userTurn 0 "img", assistantTurn "r"],
    [systemMsg, userTurn 0 "img", assistantTurn "r", userTurn 1 "img", assistantTurn "r"]]⟩

theorem getLast?_append_singleton {α : Type} (l : List α) (x : α) :
    (l ++ [x]).getLast? = some x := by
  rw [List.getLast?_append_cons]
  rfl

theorem processSnapshots_spec (chat : List Msg → Except String String) (ri : String → String) :
    ∀ (paths : List String) (i : Nat) (msgs : List Msg) (out : LoopOut),
      processSnapshots chat ri i msgs paths = Except.ok out →
      out.annotations.length = paths.length
      ∧ out.calls.length = paths.length
      ∧ out.states.length = paths.length
      ∧ out.msgs = out.states.getLastD msgs
      ∧ (∀ p, paths[0]? = some p → out.calls[0]? = some (msgs ++ [userTurn i (ri p)]))
      ∧ (∀ (k : Nat) p s, paths[k+1]? = some p → out.states[k]? = some s →
            out.calls[k+1]? = some (s ++ [userTurn (i+k+1) (ri p)]))
      ∧ (∀ (k : Nat) c, out.calls[k]? = some c →
            ∃ a, out.annotations[k]? = some a ∧ chat c = Except.ok a
              ∧ out.states[k]? = some (c ++ [assistantTurn a]))
      ∧ (∀ (k : Nat) c, out.calls[k]? = some c → c.length = msgs.length + 2*k + 1)
      ∧ (∀ (k : Nat) c, out.calls[k]? = some c → ∃ t, c = msgs ++ t)
      ∧ (∀ (k : Nat) p, paths[k]? = some p →
            ∃ c, out.calls[k]? = some c ∧ c.getLast? = some (userTurn (i+k) (ri p))) := by
  intro paths
  induction paths with
  | nil =>
    intro i msgs out h
    simp only [processSnapshots, Except.ok.injEq] at h
    subst h
    refine ⟨rfl, rfl, rfl, rfl, ?_, ?_, ?_, ?_, ?_, ?_⟩ <;>
      intro k <;> simp
  | cons p rest ih =>
    intro i msgs out h
    simp only [processSnapshots] at h
    split at h
    · cases h
    · rename_i reply hc
      split at h
      · cases h
      · rename_i out2 hr
        simp only [Except.ok.injEq] at h
        subst h
        obtain ⟨L1, L2, L3, Hlast, H0, HS, HC, HL, HP, HG⟩ :=
          ih (i+1) (msgs ++ [userTurn i (ri p)] ++ [assistantTurn reply]) out2 hr
        refine ⟨by simp [L1], by simp [L2], by simp [L3], ?_, ?_, ?_, ?_, ?_, ?_, ?_⟩
        · rw [List.getLastD_cons]; exact Hlast
        · intro q hq
          simp only [List.getElem?_cons_zero, Option.some.injEq] at hq
          subst hq
          simp
        · intro k q s hq hs
          cases k with
          | zero =>
            simp only [List.getElem?_cons_succ, List.getElem?_cons_zero] at hq hs
            simp only [Option.some.injEq] at hs
            subst hs
            have e : i + 0 + 1 = i + 1 := by omega
            rw [e]
            simpa using H0 q hq
          | succ k =>
            simp only [List.getElem?_cons_succ] at hq hs ⊢
            have e : i + (k + 1) + 1 = i + 1 + k + 1 := by omega
            rw [e]
            exact HS k q s hq hs
        · intro k c hcall
          cases k with
          | zero =>
            simp only [List.getElem?_cons_zero, Option.some.injEq] at hcall
            subst hcall
            exact ⟨reply, by simp, hc, by simp⟩
          | succ k =>
            simp only [List.getElem?_cons_succ] at hcall ⊢
            exact HC k c hcall
        · intro k c hcall
          cases k with
          | zero =>
            simp only [List.getElem?_cons_zero, Option.some.injEq] at hcall
            subst hcall
            simp
          | succ k =>
            simp only [List.getElem?_cons_succ] at hcall
            have := HL k c hcall
            simp only [List.length_append, List.length_cons, List.length_nil] at this
            omega
        · intro k c hcall
          cases k with
          | zero =>
            simp only [List.getElem?_cons_zero, Option.some.injEq] at hcall
            subst hcall
            exact ⟨[userTurn i (ri p)], rfl⟩
          | succ k =>
            simp only [List.getElem?_cons_succ] at hcall
            obtain ⟨t, rfl⟩ := HP k c hcall
            exact ⟨[userTurn i (ri p)] ++ [assistantTurn reply] ++ t, by simp⟩
        · intro k q hq
          cases k with
          | zero =>
            simp only [List.getElem?_cons_zero, Option.some.injEq] at hq
            subst hq
            refine ⟨msgs ++ [userTurn i (ri p)], by simp, ?_⟩
            have e : i + 0 = i := by omega
            rw [e]
            exact getLast?_append_singleton _ _
          | succ k =>
            simp only [List.getElem?_cons_succ] at hq ⊢
            have e : i + (k + 1) = i + 1 + k := by omega
            rw [e]
            exact HG k q hq

theorem lastD_of_getElem? {α : Type} :
    ∀ (l : List α) (d : α) (k : Nat) (s : α),
      l.length = k + 1 → l[k]? = some s → l.getLastD d = s := by
  intro l
  induction l with
  | nil => intro d k s h; cases h
  | cons a l ih =>
    intro d k s hlen hk
    cases l with
    | nil =>
      have : k = 0 := by simpa using hlen
      subst this
      simp only [List.getElem?_cons_zero, Option.some.injEq] at hk
      subst hk
      rfl
    | cons b l2 =>
      have hk1 : k = l2.length + 1 := by
        simp only [List.length_cons] at hlen
        omega
      subst hk1
      simp only [List.getElem?_cons_succ] at hk
      rw [List.getLastD_cons]
      exact ih a l2.length s (by simp) hk

/-- Unpacking of a successful `evaluateBody` run into the loop output and the
closing summary call. -/
theorem evaluateBody_spec (chat : List Msg → Except String String)
    (ri : String → String) (paths : List String) (out : AnalysisOut)
    (h : evaluateBody chat ri paths = Except.ok out) :
    ∃ lo : LoopOut, processSnapshots chat ri 0 initialMessages paths = Except.ok lo
      ∧ out.annotations = lo.annotations
      ∧ out.calls = lo.calls ++ [lo.msgs ++ [summaryUserMsg]]
      ∧ out.states = lo.states
      ∧ chat (lo.msgs ++ [summaryUserMsg]) = Except.ok out.summary
      ∧ out.finalMsgs = lo.msgs ++ [summaryUserMsg] := by
  unfold evaluateBody at h
  split at h
  · cases h
  · rename_i lo hlo
    split at h
    · cases h
    · rename_i s hs
      simp only [Except.ok.injEq] at h
      subst h
      exact ⟨lo, hlo, rfl, rfl, rfl, hs, rfl⟩

/-- C2 (amended): in a run whose analysis phase succeeds, the conversation
contains exactly 1 + 2k turns once k snapshots have been processed (one
system turn, then one user/assistant pair per snapshot): the initial
conversation has 1 turn and the conversation recorded after snapshot k
(0-based) has 1 + 2(k+1) turns.  After the closing summary request the
conversation contains exactly 1 + 2N + 1 turns, NOT 1 + 2N + 2: the summary
reply is returned to the caller but never appended to the conversation
(lines 95-108 contain no push of the summary reply). -/
theorem conversation_turn_count (chat : List Msg → Except String String)
    (ri : String → String) (paths : List String) (out : AnalysisOut)
    (h : evaluateBody chat ri paths = Except.ok out) :
    initialMessages.length = 1
    ∧ out.states.length = paths.length
    ∧ (∀ (k : Nat) (s : List Msg), out.states[k]? = some s → s.length = 1 + 2 * (k + 1))
    ∧ out.finalMsgs.length = 1 + 2 * paths.length + 1 := by
  obtain ⟨lo, hlo, hann, hcalls, hstates, hsum, hfin⟩ := evaluateBody_spec chat ri paths out h
  obtain ⟨L1, L2, L3, Hlast, H0, HS, HC, HL, HP, HG⟩ :=
    processSnapshots_spec chat ri paths 0 initialMessages lo hlo
  have hstatelen : ∀ (k : Nat) (s : List Msg), lo.states[k]? = some s →
      s.length = 1 + 2 * (k + 1) := by
    intro k s hks
    have hklt : k < lo.states.length := by
      by_contra hge
      rw [List.getElem?_eq_none (by omega)] at hks
      cases hks
    have hkc : k < lo.calls.length := by omega
    have hc := List.getElem?_eq_getElem hkc
    obtain ⟨a, ha, hchat, hsk⟩ := HC k _ hc
    have hlen := HL k _ hc
    rw [hks] at hsk
    simp only [Option.some.injEq] at hsk
    subst hsk
    simp only [initialMessages, List.length_cons, List.length_nil] at hlen
    simp only [List.length_append, List.length_cons, List.length_nil]
    omega
  refine ⟨rfl, by rw [hstates]; exact L3, ?_, ?_⟩
  · intro k s hks
    rw [hstates] at hks
    exact hstatelen k s hks
  · rw [hfin]
    simp only [List.length_append, List.length_cons, List.length_nil]
    rcases hsn : lo.states with _ | ⟨s0, srest⟩
    · rw [hsn] at L3 Hlast
      simp only [List.length_nil] at L3
      simp only [List.getLastD_nil] at Hlast
      rw [Hlast]
      simp only [initialMessages, List.length_cons, List.length_nil]
      omega
    · rw [hsn] at L3 Hlast
      have hget := List.getElem?_eq_getElem
        (show srest.length < (s0 :: srest).length by simp)
      have hl := lastD_of_getElem? (s0 :: srest) initialMessages srest.length
        ((s0 :: srest)[srest.length]) (by simp) hget
      have hslen := hstatelen srest.length ((s0 :: srest)[srest.length])
        (by rw [hsn]; exact hget)
      rw [Hlast, hl]
      simp only [List.length_cons] at L3
      omega

/-- C6: every chat-capability invocation during analysis receives the entire
accumulated conversation in original order: each call's argument begins with
the single system turn, and the argument of call k+1 is exactly the argument
of call k extended with call k's assistant reply followed by one new user
turn.  The calls are strictly sequential by construction (the loop body awaits
each call before building the next turn), which is what the trace equation
expresses: call k's reply is part of call k+1's argument. -/
theorem chat_calls_full_context (chat : List Msg → Except String String)
    (ri : String → String) (paths : List String) (out : AnalysisOut)
    (h : evaluateBody chat ri paths = Except.ok out) :
    out.calls.length = paths.length + 1
    ∧ (∀ (k : Nat) (c : List Msg), out.calls[k]? = some c → ∃ t, c = systemMsg :: t)
    ∧ (∀ (k : Nat) (c c2 : List Msg), out.calls[k]? = some c →
        out.calls[k+1]? = some c2 →
        ∃ a u, chat c = Except.ok a ∧ out.annotations[k]? = some a
          ∧ c2 = c ++ [assistantTurn a, u] ∧ u.role = Role.user) := by
  obtain ⟨lo, hlo, hann, hcalls, hstates, hsum, hfin⟩ := evaluateBody_spec chat ri paths out h
  obtain ⟨L1, L2, L3, Hlast, H0, HS, HC, HL, HP, HG⟩ :=
    processSnapshots_spec chat ri paths 0 initialMessages lo hlo
  have hmsgs : ∃ t, lo.msgs = initialMessages ++ t := by
    rcases hsn : lo.states with _ | ⟨s0, srest⟩
    · rw [hsn] at Hlast
      exact ⟨[], by rw [Hlast]; simp [List.getLastD_nil]⟩
    · rw [hsn] at Hlast L3
      have hget := List.getElem?_eq_getElem
        (show srest.length < (s0 :: srest).length by simp)
      have hl := lastD_of_getElem? (s0 :: srest) initialMessages srest.length
        ((s0 :: srest)[srest.length]) (by simp) hget
      have hkc : srest.length < lo.calls.length := by
        simp only [List.length_cons] at L3
        omega
      have hcallk := List.getElem?_eq_getElem hkc
      obtain ⟨a, ha, hchat, hsk⟩ := HC srest.length _ hcallk
      obtain ⟨t, ht⟩ := HP srest.length _ hcallk
      rw [hsn, hget] at hsk
      simp only [Option.some.injEq] at hsk
      refine ⟨t ++ [assistantTurn a], ?_⟩
      rw [Hlast, hl, hsk, ht]
      simp
  refine ⟨by rw [hcalls]; simp [L2], ?_, ?_⟩
  · intro k c hk
    rw [hcalls] at hk
    by_cases hlt : k < lo.calls.length
    · rw [List.getElem?_append_left hlt] at hk
      obtain ⟨t, rfl⟩ := HP k c hk
      exact ⟨t, by simp [initialMessages]⟩
    · rw [List.getElem?_append_right (by omega)] at hk
      have hzero : k - lo.calls.length = 0 := by
        by_contra hnz
        rcases Nat.exists_eq_succ_of_ne_zero hnz with ⟨m, hm⟩
        rw [hm] at hk
        simp at hk
      rw [hzero] at hk
      simp only [List.getElem?_cons_zero, Option.some.injEq] at hk
      subst hk
      obtain ⟨t, ht⟩ := hmsgs
      exact ⟨t ++ [summaryUserMsg], by rw [ht]; simp [initialMessages]⟩
  · intro k c c2 hk hk1
    rw [hcalls] at hk hk1
    have hk1lt : k + 1 < lo.calls.length + 1 := by
      by_contra hge
      rw [List.getElem?_append_right (by omega)] at hk1
      rcases Nat.exists_eq_succ_of_ne_zero
        (show k + 1 - lo.calls.length ≠ 0 by omega) with ⟨m, hm⟩
      rw [hm] at hk1
      simp at hk1
    have hklt : k < lo.calls.length := by omega
    rw [List.getElem?_append_left hklt] at hk
    obtain ⟨a, ha, hchat, hsk⟩ := HC k c hk
    by_cases hlt1 : k + 1 < lo.calls.length
    · rw [List.getElem?_append_left hlt1] at hk1
      have hp : k + 1 < paths.length := by omega
      have hpg := List.getElem?_eq_getElem hp
      have hcall1 := HS k _ _ hpg hsk
      rw [hk1] at hcall1
      simp only [Option.some.injEq] at hcall1
      refine ⟨a, userTurn (0+k+1) (ri (paths[k+1])), hchat,
        by rw [hann]; exact ha, ?_, rfl⟩
      rw [hcall1]
      simp
    · have hk1eq : k + 1 = lo.calls.length := by omega
      rw [List.getElem?_append_right (by omega)] at hk1
      rw [show k + 1 - lo.calls.length = 0 by omega] at hk1
      simp only [List.getElem?_cons_zero, Option.some.injEq] at hk1
      have hmsgseq : lo.msgs = c ++ [assistantTurn a] := by
        have hlen1 : lo.states.length = k + 1 := by omega
        rw [Hlast]
        exact lastD_of_getElem? lo.states initialMessages k (c ++ [assistantTurn a]) hlen1 hsk
      refine ⟨a, summaryUserMsg, hchat, by rw [hann]; exact ha, ?_, rfl⟩
      rw [← hk1, hmsgseq]
      simp

/-- C9: when the analysis phase completes without error the annotations array
has one entry per snapshot, and the k-th entry is exactly the assistant reply
returned by the chat call whose final turn is the k-th snapshot's user turn. -/
theorem annotations_index_aligned (chat : List Msg → Except String String)
    (ri : String → String) (paths : List String) (out : AnalysisOut)
    (h : evaluateBody chat ri paths = Except.ok out) :
    out.annotations.length = paths.length
    ∧ ∀ (k : Nat) (p : String), paths[k]? = some p →
        ∃ c a, out.calls[k]? = some c
          ∧ c.getLast? = some (userTurn k (ri p))
          ∧ chat c = Except.ok a
          ∧ out.annotations[k]? = some a := by
  obtain ⟨lo, hlo, hann, hcalls, hstates, hsum, hfin⟩ := evaluateBody_spec chat ri paths out h
  obtain ⟨L1, L2, L3, Hlast, H0, HS, HC, HL, HP, HG⟩ :=
    processSnapshots_spec chat ri paths 0 initialMessages lo hlo
  refine ⟨by rw [hann]; exact L1, ?_⟩
  intro k p hp
  have hklt : k < paths.length := by
    by_contra hge
    rw [List.getElem?_eq_none (by omega)] at hp
    cases hp
  obtain ⟨c, hc, hlast⟩ := HG k p hp
  obtain ⟨a, ha, hchat, hsk⟩ := HC k c hc
  refine ⟨c, a, ?_, ?_, hchat, by rw [hann]; exact ha⟩
  · rw [hcalls, List.getElem?_append_left (by omega)]
    exact hc
  · rw [hlast]
    norm_num

/-- C7: for a snapshot sequence of length at least 2, the prompt text carried
by the first snapshot's user turn (the unconditioned full-description prompt)
differs from the prompt text of every subsequent snapshot's user turn (the
relative progress-check prompt with failure-flagging instructions). -/
theorem first_prompt_distinct (chat : List Msg → Except String String)
    (ri : String → String) (paths : List String) (out : AnalysisOut)
    (h : evaluateBody chat ri paths = Except.ok out) :
    ∀ (k : Nat), 1 ≤ k → k < paths.length →
      ∀ (c0 ck : List Msg) (m0 mk : Msg),
        out.calls[0]? = some c0 → out.calls[k]? = some ck →
        c0.getLast? = some m0 → ck.getLast? = some mk →
        mk.text ≠ m0.text := by
  obtain ⟨lo, hlo, hann, hcalls, hstates, hsum, hfin⟩ := evaluateBody_spec chat ri paths out h
  obtain ⟨L1, L2, L3, Hlast, H0, HS, HC, HL, HP, HG⟩ :=
    processSnapshots_spec chat ri paths 0 initialMessages lo hlo
  intro k hk1 hklt c0 ck m0 mk hc0 hck hm0 hmk
  have h0lt : 0 < paths.length := by omega
  obtain ⟨q0, hq0⟩ : ∃ q, paths[0]? = some q := ⟨paths[0], List.getElem?_eq_getElem h0lt⟩
  obtain ⟨qk, hqk⟩ : ∃ q, paths[k]? = some q := ⟨paths[k], List.getElem?_eq_getElem hklt⟩
  obtain ⟨d0, hd0, hd0last⟩ := HG 0 q0 hq0
  obtain ⟨dk, hdk, hdklast⟩ := HG k qk hqk
  rw [hcalls, List.getElem?_append_left (by omega)] at hc0 hck
  rw [hc0] at hd0
  rw [hck] at hdk
  simp only [Option.some.injEq] at hd0 hdk
  subst hd0
  subst hdk
  rw [hm0] at hd0last
  rw [hmk] at hdklast
  simp only [Option.some.injEq] at hd0last hdklast
  subst hd0last
  subst hdklast
  show promptText (0 + k) ≠ promptText (0 + 0)
  have e1 : promptText (0 + k) = subsequentPromptText := by
    unfold promptText
    rw [if_neg (by omega)]
  have e2 : promptText (0 + 0) = firstPromptText := rfl
  rw [e1, e2]
  decide

theorem captureLoop_first_success (capOk : Nat → Nat → Bool) (i : Nat)
    (h : capOk i 0 = true) :
    captureLoop capOk i 3 0 = ([Ev.attempt i 0, Ev.capture i], true) := by
  simp [captureLoop, h]

theorem captureLoop_third_success (capOk : Nat → Nat → Bool) (i : Nat)
    (h0 : capOk i 0 = false) (h1 : capOk i 1 = false) (h2 : capOk i 2 = true) :
    captureLoop capOk i 3 0 =
      ([Ev.attempt i 0, Ev.wait 5000, Ev.attempt i 1, Ev.wait 5000,
        Ev.attempt i 2, Ev.capture i], true) := by
  simp [captureLoop, h0, h1, h2]

theorem captureLoop_exhausted (capOk : Nat → Nat → Bool) (i : Nat)
    (h0 : capOk i 0 = false) (h1 : capOk i 1 = false) (h2 : capOk i 2 = false) :
    captureLoop capOk i 3 0 =
      ([Ev.attempt i 0, Ev.wait 5000, Ev.attempt i 1, Ev.wait 5000,
        Ev.attempt i 2], false) := by
  simp [captureLoop, h0, h1, h2]

theorem schedGo_ok (capOk : Nat → Nat → Bool) (pathFor : Nat → String) (T N : Nat)
    (hok : ∀ j, (captureLoop capOk j 3 0).2 = true) :
    ∀ (fuel i : Nat), schedGo capOk pathFor T N fuel i =
      ⟨(List.range' i fuel).map (fun j => ⟨j, pathFor j⟩),
       (List.range' i fuel).flatMap (fun j =>
         (captureLoop capOk j 3 0).1 ++ (if j < N - 1 then [Ev.wait T] else [])),
       false⟩ := by
  intro fuel
  induction fuel with
  | zero => intro i; rfl
  | succ fuel ih =>
    intro i
    simp only [schedGo, hok i, if_true]
    rw [ih (i + 1)]
    simp [List.range'_succ, List.append_assoc]

theorem schedGo_fatal (capOk : Nat → Nat → Bool) (pathFor : Nat → String)
    (T N f : Nat)
    (hok : ∀ j, j < f → (captureLoop capOk j 3 0).2 = true)
    (hf : (captureLoop capOk f 3 0).2 = false) :
    ∀ (fuel i : Nat), i ≤ f → f < i + fuel →
      (schedGo capOk pathFor T N fuel i).records =
        (List.range' i (f - i)).map (fun j => ⟨j, pathFor j⟩)
      ∧ (schedGo capOk pathFor T N fuel i).fatal = true := by
  intro fuel
  induction fuel with
  | zero => intro i h1 h2; omega
  | succ fuel ih =>
    intro i h1 h2
    by_cases hif : i = f
    · subst hif
      simp only [schedGo, hf, if_false]
      constructor
      · rw [Nat.sub_self]
        rfl
      · rfl
    · have hlt : i < f := by omega
      have hoki := hok i hlt
      simp only [schedGo, hoki, if_true]
      obtain ⟨hrec, hfat⟩ := ih (i + 1) (by omega) (by omega)
      refine ⟨?_, hfat⟩
      simp only [hrec]
      rw [show f - i = (f - (i + 1)) + 1 by omega, List.range'_succ]
      simp

/-- C4: when every capture attempt succeeds, a run for target count N and
interval T produces exactly N snapshot records with contiguous, strictly
increasing sequence indices 0..N-1, and its event trace is, per snapshot: one
capture attempt, the capture itself, and -- exactly when the snapshot is not
the final one -- a single idle of exactly T milliseconds; no idle follows the
final capture, and the run is not aborted. -/
theorem scheduler_all_success (capOk : Nat → Nat → Bool) (pathFor : Nat → String)
    (T N : Nat) (hN : 1 ≤ N) (hcap : ∀ i a, capOk i a = true) :
    scheduler capOk pathFor T N =
      ⟨(List.range N).map (fun j => ⟨j, pathFor j⟩),
       (List.range N).flatMap (fun j =>
         [Ev.attempt j 0, Ev.capture j] ++ (if j < N - 1 then [Ev.wait T] else [])),
       false⟩ := by
  have hloop : ∀ j, captureLoop capOk j 3 0 = ([Ev.attempt j 0, Ev.capture j], true) :=
    fun j => captureLoop_first_success capOk j (hcap j 0)
  have h := schedGo_ok capOk pathFor T N (fun j => by rw [hloop j]) N 0
  unfold scheduler
  rw [h, List.range_eq_range']
  simp [hloop]

/-- C5: the capture capability is attempted at most 3 times per snapshot with
a fixed 5000 ms wait after each failed attempt that leaves retries; a
capability failing twice then succeeding on the third attempt still captures
(and, when all other snapshots capture, the run yields all N records with no
pipeline-visible failure), while three consecutive failures exhaust the
retries: the run is aborted as fatal, the error propagates to the caller
(`pipelineOutcome` is an error), and no record beyond the last successful
index 0..i-1 exists. -/
theorem capture_retry_policy (capOk : Nat → Nat → Bool) (pathFor : Nat → String)
    (T N i : Nat) (hiN : i < N)
    (hbefore : ∀ j a, j < i → capOk j a = true)
    (h0 : capOk i 0 = false) (h1 : capOk i 1 = false) :
    (capOk i 2 = true →
      captureLoop capOk i 3 0 =
        ([Ev.attempt i 0, Ev.wait 5000, Ev.attempt i 1, Ev.wait 5000,
          Ev.attempt i 2, Ev.capture i], true))
    ∧ ((capOk i 2 = true ∧ ∀ j a, j ≠ i → capOk j a = true) →
        (scheduler capOk pathFor T N).fatal = false
        ∧ (scheduler capOk pathFor T N).records =
            (List.range N).map (fun j => ⟨j, pathFor j⟩))
    ∧ (capOk i 2 = false →
      captureLoop capOk i 3 0 =
        ([Ev.attempt i 0, Ev.wait 5000, Ev.attempt i 1, Ev.wait 5000,
          Ev.attempt i 2], false)
      ∧ (scheduler capOk pathFor T N).fatal = true
      ∧ (scheduler capOk pathFor T N).records =
          (List.range i).map (fun j => ⟨j, pathFor j⟩)
      ∧ ∀ (chat : List Msg → Except String String) (ri : String → String)
          (ok : Nat → Bool) (outDir now : String),
          pipelineOutcome capOk pathFor T N chat ri ok outDir now =
            Except.error ()) := by
  refine ⟨fun h2 => captureLoop_third_success capOk i h0 h1 h2, ?_, ?_⟩
  · rintro ⟨h2, hrest⟩
    have hok : ∀ j, (captureLoop capOk j 3 0).2 = true := by
      intro j
      by_cases hji : j = i
      · subst hji
        rw [captureLoop_third_success capOk j h0 h1 h2]
      · rw [captureLoop_first_success capOk j (hrest j 0 hji)]
    have h := schedGo_ok capOk pathFor T N hok N 0
    unfold scheduler
    rw [h]
    exact ⟨rfl, by rw [List.range_eq_range']⟩
  · intro h2
    have hcl := captureLoop_exhausted capOk i h0 h1 h2
    have hfatal := schedGo_fatal capOk pathFor T N i
      (fun j hj => by rw [captureLoop_first_success capOk j (hbefore j 0 hj)])
      (by rw [hcl]) N 0 (by omega) (by omega)
    refine ⟨hcl, hfatal.2, ?_, ?_⟩
    · have := hfatal.1
      rw [Nat.sub_zero] at this
      unfold scheduler
      rw [this, List.range_eq_range']
    · intro chat ri ok outDir now
      have hft : (scheduler capOk pathFor T N).fatal = true := hfatal.2
      simp [pipelineOutcome, hft]

theorem reportOpsOk_length (outDir : String) :
    ∀ (paths anns : List String), anns.length = paths.length →
      (reportOpsOk outDir paths anns).length = 2 * paths.length := by
  intro paths
  induction paths with
  | nil => intro anns h; rfl
  | cons p rest ih =>
    intro anns h
    cases anns with
    | nil => simp at h
    | cons a anns2 =>
      simp only [List.length_cons] at h
      simp only [reportOpsOk, List.zip_cons_cons, List.flatMap_cons] at ih ⊢
      rw [List.length_append, ih anns2 (by omega)]
      simp only [List.length_cons, List.length_nil]
      omega

theorem reportLoop_ok_range (ok : Nat → Bool) (outDir : String) :
    ∀ (paths anns : List String) (i n : Nat),
      i + paths.length ≤ anns.length →
      (∀ m, n ≤ m → m < n + 2 * paths.length → ok m = true) →
      reportLoop ok outDir anns paths i n =
        ⟨(paths.zip (anns.drop i)).flatMap (fun pa =>
            [FsOp.copyFile pa.1 (pathJoin outDir (baseName pa.1)),
             FsOp.writeFile (pathJoin outDir (annFileName pa.1)) pa.2]),
          n + 2 * paths.length, false⟩ := by
  intro paths
  induction paths with
  | nil =>
    intro anns i n h hok
    simp [reportLoop]
  | cons p rest ih =>
    intro anns i n h hok
    simp only [List.length_cons] at h
    have hi : i < anns.length := by omega
    have hsome := List.getElem?_eq_getElem hi
    have hokn : ok n = true := hok n (by omega) (by simp only [List.length_cons]; omega)
    have hokn1 : ok (n+1) = true := hok (n+1) (by omega) (by simp only [List.length_cons]; omega)
    simp only [reportLoop, hokn, hokn1, if_true]
    rw [hsome]
    rw [ih anns (i+1) (n+2) (by omega)
      (fun m hm1 hm2 => hok m (by omega) (by simp only [List.length_cons]; omega))]
    rw [List.drop_eq_getElem_cons hi]
    simp only [List.zip_cons_cons, List.flatMap_cons, RLoopOut.mk.injEq,
      List.cons_append, List.nil_append, List.length_cons, true_and, and_true]
    omega

theorem indexEntriesFrom_length :
    ∀ (l : List String) (k : Nat), (indexEntriesFrom k l).length = l.length := by
  intro l
  induction l with
  | nil => intro k; rfl
  | cons p rest ih =>
    intro k
    simp only [indexEntriesFrom, List.length_cons, ih (k+1)]

theorem indexEntriesFrom_getElem? :
    ∀ (l : List String) (k0 k : Nat) (p : String),
      l[k]? = some p →
      (indexEntriesFrom k0 l)[k]? =
        some ⟨"Screenshot " ++ toString (k0 + k + 1), baseName p, annFileName p⟩ := by
  intro l
  induction l with
  | nil => intro k0 k p h; cases h
  | cons q rest ih =>
    intro k0 k p h
    cases k with
    | zero =>
      simp only [List.getElem?_cons_zero, Option.some.injEq] at h
      subst h
      simp [indexEntriesFrom]
    | succ k =>
      simp only [List.getElem?_cons_succ] at h
      simp only [indexEntriesFrom, List.getElem?_cons_succ]
      rw [ih (k0+1) k p h]
      have e : k0 + 1 + k + 1 = k0 + (k + 1) + 1 := by omega
      rw [e]

/-- C3: given a snapshot sequence and an index-aligned `AnnotationSet` (one
annotation per snapshot), a report run in which every file operation succeeds
writes exactly one annotation file per snapshot (one copy + one write per
snapshot, in order, then the summary and index documents and nothing else),
and the index document references every snapshot exactly once, in sequence
order, each entry carrying the snapshot's image preview and the link to
exactly the annotation file written for it, plus static links to the
transcript and summary documents. -/
theorem report_artifacts_complete (ok : Nat → Bool) (outDir : String)
    (paths anns : List String) (summary now : String)
    (hok : ∀ n, ok n = true) (hlen : anns.length = paths.length) :
    (createReportsBody ok outDir paths anns summary now).err = false
    ∧ (createReportsBody ok outDir paths anns summary now).ops =
        reportOpsOk outDir paths anns
          ++ [FsOp.writeFile (pathJoin outDir ("workflow_summary.md")) summary,
              FsOp.writeFile (pathJoin outDir ("index.html")) (indexHtml paths summary now)]
    ∧ (indexEntries paths).length = paths.length
    ∧ (∀ (k : Nat) (p : String), paths[k]? = some p →
        (indexEntries paths)[k]? =
          some ⟨"Screenshot " ++ toString (k + 1), baseName p, annFileName p⟩)
    ∧ (buildIndexDoc paths summary now).transcriptHref = "conversation_log.md"
    ∧ (buildIndexDoc paths summary now).summaryHref = "workflow_summary.md" := by
  have hloop := reportLoop_ok_range ok outDir paths anns 0 0 (by omega)
    (fun m _ _ => hok m)
  rw [List.drop_zero] at hloop
  refine ⟨?_, ?_, ?_, ?_, rfl, rfl⟩
  · simp only [createReportsBody, hloop, hok]
    simp
  · simp only [createReportsBody, hloop, hok]
    simp [reportOpsOk]
  · exact indexEntriesFrom_length paths 0
  · intro k p hp
    have := indexEntriesFrom_getElem? paths 0 k p hp
    rw [show 0 + k + 1 = k + 1 by omega] at this
    exact this

theorem reportLoop_first_fail (ok : Nat → Bool) (outDir : String) (j : Nat)
    (hj : ok j = false) (hbef : ∀ m, m < j → ok m = true) :
    ∀ (paths anns : List String) (i n : Nat),
      i + paths.length ≤ anns.length →
      n ≤ j → j < n + 2 * paths.length →
      (reportLoop ok outDir anns paths i n).err = true
      ∧ (reportLoop ok outDir anns paths i n).ops =
          ((paths.zip (anns.drop i)).flatMap (fun pa =>
            [FsOp.copyFile pa.1 (pathJoin outDir (baseName pa.1)),
             FsOp.writeFile (pathJoin outDir (annFileName pa.1)) pa.2])).take (j - n) := by
  intro paths
  induction paths with
  | nil =>
    intro anns i n h1 h2 h3
    simp only [List.length_nil] at h3
    omega
  | cons p rest ih =>
    intro anns i n h1 h2 h3
    simp only [List.length_cons] at h1 h3
    have hi : i < anns.length := by omega
    have hsome := List.getElem?_eq_getElem hi
    rw [List.drop_eq_getElem_cons hi]
    simp only [List.zip_cons_cons, List.flatMap_cons, List.cons_append, List.nil_append]
    by_cases hn : n = j
    · subst hn
      constructor
      · simp [reportLoop, hj]
      · simp [reportLoop, hj]
    · have hokn : ok n = true := hbef n (by omega)
      simp only [reportLoop, hokn, if_true]
      rw [hsome]
      by_cases hn1 : n + 1 = j
      · rw [hn1, hj]
        simp only [Bool.false_eq_true, if_false]
        refine ⟨by simp, ?_⟩
        rw [show j - n = 1 by omega]
        simp
      · have hokn1 : ok (n+1) = true := hbef (n+1) (by omega)
        simp only [hokn1, if_true]
        obtain ⟨herr, hops⟩ := ih anns (i+1) (n+2) (by omega) (by omega) (by omega)
        refine ⟨herr, ?_⟩
        simp only [hops]
        rw [show j - n = ((j - (n+2)) + 1) + 1 by omega]
        simp [List.take_succ_cons]

/-- C10: inside the Report Assembler a single failing copy or write aborts all
remaining report writes: if the j-th file operation of the run is the first to
fail, the performed operations are exactly the first j operations of the
corresponding fully-successful run -- every later annotation file, screenshot
copy, the summary document and the index document are skipped entirely. -/
theorem write_failure_aborts_rest (ok : Nat → Bool) (outDir : String)
    (paths anns : List String) (summary now : String) (j : Nat)
    (hlen : anns.length = paths.length)
    (hj : ok j = false) (hbef : ∀ m, m < j → ok m = true)
    (hscope : j < 2 * paths.length + 2) :
    (createReportsBody ok outDir paths anns summary now).err = true
    ∧ (createReportsBody ok outDir paths anns summary now).ops =
        ((createReportsBody (fun _ => true) outDir paths anns summary now).ops).take j := by
  have hfull := reportLoop_ok_range (fun _ => true) outDir paths anns 0 0 (by omega)
    (fun m _ _ => rfl)
  rw [List.drop_zero] at hfull
  have hfullbody :
      (createReportsBody (fun _ => true) outDir paths anns summary now).ops =
        reportOpsOk outDir paths anns
          ++ [FsOp.writeFile (pathJoin outDir ("workflow_summary.md")) summary,
              FsOp.writeFile (pathJoin outDir ("index.html")) (indexHtml paths summary now)] :=
    (report_artifacts_complete (fun _ => true) outDir paths anns summary now
      (fun _ => rfl) hlen).2.1
  have hopslen := reportOpsOk_length outDir paths anns hlen
  by_cases hcase : j < 2 * paths.length
  · obtain ⟨herr, hops⟩ := reportLoop_first_fail ok outDir j hj hbef paths anns 0 0
      (by omega) (by omega) (by omega)
    rw [List.drop_zero, Nat.sub_zero] at hops
    have hbody : createReportsBody ok outDir paths anns summary now =
        ⟨(reportOpsOk outDir paths anns).take j, true⟩ := by
      simp only [createReportsBody, herr, if_true]
      rw [hops]
      rfl
    constructor
    · rw [hbody]
    · rw [hbody, hfullbody, List.take_append_eq_append_take,
        show j - (reportOpsOk outDir paths anns).length = 0 by omega,
        List.take_zero, List.append_nil]
  · have hloop := reportLoop_ok_range ok outDir paths anns 0 0 (by omega)
      (fun m _ hm2 => hbef m (by omega))
    rw [List.drop_zero] at hloop
    by_cases hj2 : j = 2 * paths.length
    · have hoknext : ok (0 + 2 * paths.length) = false := by
        rw [Nat.zero_add, ← hj2]
        exact hj
      have hbody : createReportsBody ok outDir paths anns summary now =
          ⟨reportOpsOk outDir paths anns, true⟩ := by
        simp only [createReportsBody, hloop, hoknext]
        rfl
      constructor
      · rw [hbody]
      · rw [hbody, hfullbody, List.take_append_eq_append_take,
          show j - (reportOpsOk outDir paths anns).length = 0 by omega,
          List.take_zero, List.append_nil,
          List.take_of_length_le (by omega)]
    · have hj3 : j = 2 * paths.length + 1 := by omega
      have hoknext : ok (0 + 2 * paths.length) = true := by
        rw [Nat.zero_add]
        exact hbef _ (by omega)
      have hoknext1 : ok (0 + 2 * paths.length + 1) = false := by
        rw [Nat.zero_add, ← hj3]
        exact hj
      have hbody : createReportsBody ok outDir paths anns summary now =
          ⟨reportOpsOk outDir paths anns
            ++ [FsOp.writeFile (pathJoin outDir ("workflow_summary.md")) summary], true⟩ := by
        simp only [createReportsBody, hloop, hoknext, hoknext1]
        rfl
      constructor
      · rw [hbody]
      · rw [hbody, hfullbody, List.take_append_eq_append_take,
          show j - (reportOpsOk outDir paths anns).length = 1 by omega,
          List.take_of_length_le (by omega)]
        rfl

/-- C8: failures while writing report files are swallowed inside
`createReports` (its catch block logs and does not rethrow), so whatever the
filesystem-failure oracle does, a run whose capture phase did not exhaust its
retries completes successfully: report write failures never change the
success/failure outcome of the pipeline run. -/
theorem report_write_failures_swallowed (capOk : Nat → Nat → Bool)
    (pathFor : Nat → String) (T N : Nat)
    (chat : List Msg → Except String String) (ri : String → String)
    (ok : Nat → Bool) (outDir now : String)
    (h : (scheduler capOk pathFor T N).fatal = false) :
    (pipelineOutcome capOk pathFor T N chat ri ok outDir now).isOk = true := by
  simp only [pipelineOutcome, h, Bool.false_eq_true, if_false]
  rfl

/-- C1 (amended): if the chat capability fails on any call during the
analysis phase, the phase-boundary catch returns a degraded `AnnotationSet`
that consists of a single sentinel annotation -- not one sentinel per
snapshot -- together with a sentinel `summaryText`; the pipeline still
proceeds to reporting, but for a run with at least two snapshots the Report
Assembler then aborts at the first missing annotation (writing `undefined`
throws): it performs exactly the first snapshot's copy, the sentinel
annotation write and the second snapshot's copy, and never writes the index
document. -/
theorem chat_failure_degrades (chat : List Msg → Except String String)
    (ri : String → String) (paths : List String) (e : String)
    (h : evaluateBody chat ri paths = Except.error e)
    (ok : Nat → Bool) (outDir now : String) (hok : ∀ n, ok n = true)
    (p0 p1 : String) (rest : List String) (hp : paths = p0 :: p1 :: rest) :
    evaluateScreenshotsWithClaude chat ri paths =
      (["Error evaluating screenshots: " ++ e], "Error generating summary: " ++ e)
    ∧ (createReportsBody ok outDir paths ["Error evaluating screenshots: " ++ e]
        ("Error generating summary: " ++ e) now).err = true
    ∧ (createReportsBody ok outDir paths ["Error evaluating screenshots: " ++ e]
        ("Error generating summary: " ++ e) now).ops =
        [FsOp.copyFile p0 (pathJoin outDir (baseName p0)),
         FsOp.writeFile (pathJoin outDir (annFileName p0))
           ("Error evaluating screenshots: " ++ e),
         FsOp.copyFile p1 (pathJoin outDir (baseName p1))] := by
  subst hp
  refine ⟨?_, ?_, ?_⟩
  · unfold evaluateScreenshotsWithClaude
    rw [h]
  · simp [createReportsBody, reportLoop, hok]
  · simp [createReportsBody, reportLoop, hok]

theorem cOut_eval : evaluateBody cChat cRi cPaths = Except.ok cOut := by rfl

/-- C1 counterexample: with two snapshots and a chat capability that fails,
the degraded `AnnotationSet` does NOT have a sentinel in every one of the N=2
positions -- it has a single entry -- and the Report Assembler does NOT emit
an index document referencing the snapshots: the only operations performed are
the first snapshot's copy, the single sentinel annotation write, and the
second snapshot's copy (the run aborts before `workflow_summary.md` and
`index.html` are written). -/
theorem chat_failure_counterexample :
    (evaluateScreenshotsWithClaude failChat cRi cPaths).1.length ≠ cPaths.length
    ∧ createReports (fun _ => true) ("analysis") cPaths
        (evaluateScreenshotsWithClaude failChat cRi cPaths).1
        (evaluateScreenshotsWithClaude failChat cRi cPaths).2 ("now") =
      [FsOp.copyFile ("shots/a.png") (pathJoin ("analysis") (baseName ("shots/a.png"))),
       FsOp.writeFile (pathJoin ("analysis") (annFileName ("shots/a.png")))
         ("Error evaluating screenshots: boom"),
       FsOp.copyFile ("shots/b.png") (pathJoin ("analysis") (baseName ("shots/b.png")))] := by
  exact ⟨by decide, by decide⟩

theorem chat_failure_degrades_witness :
    evaluateScreenshotsWithClaude failChat cRi cPaths =
      (["Error evaluating screenshots: " ++ "boom"],
       "Error generating summary: " ++ "boom") :=
  (chat_failure_degrades failChat cRi cPaths ("boom") rfl (fun _ => true)
    ("analysis") ("now") (fun _ => rfl) ("shots/a.png") ("shots/b.png") [] rfl).1

/-- C2 counterexample: on a concrete successful two-snapshot run the final
conversation held by the engine has 1 + 2N + 1 = 6 turns, not the
1 + 2N + 2 = 7 turns the original claim states, because the summary reply is
never appended to the conversation. -/
theorem conversation_turn_count_counterexample :
    evaluateBody cChat cRi cPaths = Except.ok cOut
    ∧ cOut.finalMsgs.length ≠ 1 + 2 * cPaths.length + 2 :=
  ⟨cOut_eval, by decide⟩

theorem conversation_turn_count_witness :
    cOut.finalMsgs.length = 1 + 2 * cPaths.length + 1 :=
  (conversation_turn_count cChat cRi cPaths cOut cOut_eval).2.2.2

theorem report_artifacts_complete_witness :
    (createReportsBody (fun _ => true) ("out") cPaths ["r", "r"] ("s") ("t")).err = false :=
  (report_artifacts_complete (fun _ => true) ("out") cPaths ["r", "r"] ("s") ("t")
    (fun _ => rfl) (by decide)).1

theorem scheduler_all_success_witness :
    scheduler (fun _ _ => true) cPathFor 7 3 =
      ⟨(List.range 3).map (fun j => ⟨j, cPathFor j⟩),
       (List.range 3).flatMap (fun j =>
         [Ev.attempt j 0, Ev.capture j] ++ (if j < 3 - 1 then [Ev.wait 7] else [])),
       false⟩ :=
  scheduler_all_success (fun _ _ => true) cPathFor 7 3 (by decide) (fun _ _ => rfl)

theorem capture_retry_policy_witness :
    captureLoop cCapOkFlaky 1 3 0 =
      ([Ev.attempt 1 0, Ev.wait 5000, Ev.attempt 1 1, Ev.wait 5000,
        Ev.attempt 1 2, Ev.capture 1], true) :=
  (capture_retry_policy cCapOkFlaky cPathFor 7 3 1 (by decide)
    (fun j a hj => by
      have hj0 : j = 0 := by omega
      subst hj0
      rfl)
    (by decide) (by decide)).1 (by decide)

theorem chat_calls_full_context_witness :
    cOut.calls.length = cPaths.length + 1 :=
  (chat_calls_full_context cChat cRi cPaths cOut cOut_eval).1

theorem first_prompt_distinct_witness :
    (userTurn 1 ("img")).text ≠ (userTurn 0 ("img")).text :=
  first_prompt_distinct cChat cRi cPaths cOut cOut_eval 1 (by decide) (by decide)
    [systemMsg, userTurn 0 ("img")]
    [systemMsg, userTurn 0 ("img"), assistantTurn "r", userTurn 1 ("img")]
    (userTurn 0 ("img")) (userTurn 1 ("img"))
    (by decide) (by decide) (by decide) (by decide)

theorem report_write_failures_swallowed_witness :
    (pipelineOutcome (fun _ _ => true) cPathFor 7 1 cChat cRi (fun _ => false)
      ("out") ("t")).isOk = true :=
  report_write_failures_swallowed (fun _ _ => true) cPathFor 7 1 cChat cRi
    (fun _ => false) ("out") ("t") (by decide)

theorem annotations_index_aligned_witness :
    cOut.annotations.length = cPaths.length :=
  (annotations_index_aligned cChat cRi cPaths cOut cOut_eval).1

theorem write_failure_aborts_rest_witness :
    (createReportsBody cOkFail1 ("out") cPaths ["r", "r"] ("s") ("t")).err = true :=
  (write_failure_aborts_rest cOkFail1 ("out") cPaths ["r", "r"] ("s") ("t") 1
    (by decide) (by decide)
    (fun m hm => by
      have hm0 : m = 0 := by omega
      subst hm0
      rfl)
    (by decide)).1
